import Mathlib

/-!
Verification development for a JWT-based authentication service (FastAPI app).
The HTTP handlers `register`, `login` and `get_current_user` and the pydantic
schemas are embedded from `src/main.py` and `src/schemas.py`.  The repository
modules `auth.py` (password hashing, token encode/decode) and `database.py`
(user store) are imported by `main.py` but are not part of the source tree;
they are modelled from the specification (sections 4.1 PasswordHasher and
4.2 TokenCodec), with the user store as a list of records searched in order,
mirroring `db.query(User).filter(...).first()`.
-/

namespace AuthSpec

/-! ## Byte-level helpers -/

/-- Bytes of a string: the code points of its characters. -/
def strBytes (s : String) : List Nat := s.data.map Char.toNat

/-- Inverse direction: rebuild a string from code points. -/
def bytesToStr (l : List Nat) : String := String.mk (l.map Char.ofNat)

theorem bytesToStr_strBytes (s : String) : bytesToStr (strBytes s) = s := by
  have h : ∀ l : List Char, l.map (fun c => Char.ofNat c.toNat) = l := by
    intro l
    induction l with
    | nil => rfl
    | cons c cs ih => simp [Char.ofNat_toNat, ih]
  cases s with
  | mk data =>
    simp [bytesToStr, strBytes, List.map_map, Function.comp_def, h]

/-- Comparison of two byte strings that inspects every position of the zipped
lists instead of aborting at the first mismatch, mirroring the constant-time
comparison required by the spec (the timing itself is not modelled, only the
functional result). -/
def ctEq (a b : List Nat) : Bool :=
  (a.length == b.length) && (a.zip b).all (fun q => q.1 == q.2)

theorem ctEq_iff (a b : List Nat) : ctEq a b = true ↔ a = b := by
  induction a generalizing b with
  | nil => cases b <;> simp [ctEq]
  | cons x xs ih =>
    cases b with
    | nil => simp [ctEq]
    | cons y ys =>
      simp only [ctEq, List.zip_cons_cons, List.all_cons, List.length_cons,
        Bool.and_eq_true, beq_iff_eq, Nat.succ.injEq, List.cons.injEq] at *
      constructor
      · rintro ⟨hlen, hy, hall⟩
        exact ⟨hy, (ih ys).1 ⟨hlen, hall⟩⟩
      · rintro ⟨hy, hys⟩
        have := (ih ys).2 hys
        simp only [Bool.and_eq_true, beq_iff_eq] at this
        exact ⟨this.1, hy, this.2⟩

/-! ## PasswordHasher

Modelled from the spec: `auth.get_password_hash` and `auth.verify_password`
live in `auth.py`, which is not under `src/`.  Spec 4.1: `hash` produces a
salted opaque byte string embedding its parameters; `verify` recomputes using
the salt embedded in the hash and compares without short-circuit, returning
`false` (never throwing) on malformed hash input, mismatched secret, or empty
secret.  The randomized salt is passed explicitly; the one-way digest is
modelled symbolically as the salt mixed with the secret's bytes. -/

/-- Modelled from the spec: the salted digest of a secret (symbolic one-way
function: injective in the secret for a fixed salt). -/
def hashDigest (secret : String) (salt : Nat) : List Nat :=
  salt :: strBytes secret

/-- Modelled from the spec: `auth.get_password_hash` — the stored hash embeds
the salt (its parameters) followed by the digest. -/
def get_password_hash (secret : String) (salt : Nat) : List Nat :=
  salt :: hashDigest secret salt

/-- Extract the embedded salt and digest from a stored hash; a hash with no
parameter prefix is malformed. -/
def parseStoredHash (h : List Nat) : Option (Nat × List Nat) :=
  match h with
  | [] => none
  | salt :: digest => some (salt, digest)

/-- Modelled from the spec: `auth.verify_password` — total, returns `false` on
empty secret or malformed hash, otherwise recomputes the digest with the
embedded salt and compares. -/
def verify_password (secret : String) (h : List Nat) : Bool :=
  if secret = "" then false
  else
    match parseStoredHash h with
    | none => false
    | some (salt, digest) => ctEq (hashDigest secret salt) digest

theorem verify_password_hash (secret : String) (salt : Nat)
    (hne : secret ≠ "") :
    verify_password secret (get_password_hash secret salt) = true := by
  simp [verify_password, get_password_hash, parseStoredHash, hne, ctEq_iff]

theorem strBytes_inj {s t : String} (h : strBytes s = strBytes t) : s = t := by
  have := congrArg bytesToStr h
  rwa [bytesToStr_strBytes, bytesToStr_strBytes] at this

/-! ## TokenCodec

Modelled from the spec: `auth.create_access_token` and `auth.verify_token`
live in `auth.py`, which is not under `src/`.  Spec 4.2: `encode` sets
issued-at to the current time and expiry to issued-at + ttl, serializes the
claims plus expiry into a payload, computes a keyed signature over the
payload and concatenates payload and signature; `decode` splits payload and
signature, rejects on signature mismatch, rejects if current time ≥ embedded
expiry, otherwise deserializes the claim set.  The keyed MAC is modelled
symbolically (key prepended to the payload), which is injective in the
payload for a fixed key. -/

/-- The claim data placed into a token at login: `{"sub": email,
"username": username}` as built in `main.login`. -/
structure Claims where
  sub : String
  username : String
deriving DecidableEq

/-- A decoded claim set: the claims plus the issued-at and expiry timestamps
added by `encode`. -/
structure ClaimSet where
  claims : Claims
  iat : Nat
  exp : Nat
deriving DecidableEq

/-- The three failure modes of `decode` named by the spec. -/
inductive TokenError where
  | TokenMalformed
  | TokenSignatureInvalid
  | TokenExpired
deriving DecidableEq

/-- Length-prefixed serialization of a string field. -/
def serializeStr (s : String) : List Nat :=
  s.data.length :: strBytes s

/-- Read back one length-prefixed string field, returning the rest. -/
def deserializeStr (l : List Nat) : Option (String × List Nat) :=
  match l with
  | [] => none
  | n :: rest =>
      if n ≤ rest.length then some (bytesToStr (rest.take n), rest.drop n)
      else none

theorem length_strBytes (s : String) : (strBytes s).length = s.data.length := by
  simp [strBytes]

theorem deserializeStr_round (s : String) (t : List Nat) :
    deserializeStr (serializeStr s ++ t) = some (s, t) := by
  have hlen : (strBytes s).length = s.data.length := length_strBytes s
  simp only [serializeStr, List.cons_append, deserializeStr]
  rw [if_pos]
  · rw [List.take_append_of_le_length (by rw [hlen]),
      List.drop_append_of_le_length (by rw [hlen])]
    rw [← hlen]
    simp [bytesToStr_strBytes]
  · rw [List.length_append, hlen]
    exact Nat.le_add_right _ _

/-- Payload of a claim set: expiry first (read before full deserialization),
then issued-at, then the two string claims. -/
def serializeClaims (cs : ClaimSet) : List Nat :=
  cs.exp :: cs.iat :: (serializeStr cs.claims.sub ++ serializeStr cs.claims.username)

/-- Deserialize the claims portion of a payload (after expiry and issued-at). -/
def decodePayload (rest : List Nat) : Option Claims :=
  match deserializeStr rest with
  | none => none
  | some (sub, r2) =>
      match deserializeStr r2 with
      | none => none
      | some (uname, r3) => if r3 = [] then some ⟨sub, uname⟩ else none

/-- Modelled from the spec: the keyed integrity signature over a payload,
as a symbolic MAC — injective in the payload for a fixed key. -/
def sign (key : Nat) (p : List Nat) : List Nat := key :: p

/-- A token string: the payload length, then payload bytes, then signature
bytes. -/
def serializeToken (p s : List Nat) : List Nat := p.length :: (p ++ s)

/-- Split a token string back into payload and signature;
fails (malformed) when the structure is wrong. -/
def splitToken (t : List Nat) : Option (List Nat × List Nat) :=
  match t with
  | [] => none
  | n :: rest =>
      if n ≤ rest.length then some (rest.take n, rest.drop n) else none

/-- Modelled from the spec: `TokenCodec.encode` — issued-at is `now`, expiry
`now + ttl`; payload and keyed signature concatenated into the token. -/
def encode (c : Claims) (now ttl key : Nat) : List Nat :=
  let p := serializeClaims ⟨c, now, now + ttl⟩
  serializeToken p (sign key p)

/-- Modelled from the spec: `TokenCodec.decode` — split, check signature
(constant-time compare), check expiry (`now ≥ exp` rejects), deserialize. -/
def decode (t : List Nat) (now key : Nat) : Except TokenError ClaimSet :=
  match splitToken t with
  | none => .error .TokenMalformed
  | some (p, s) =>
      if ctEq (sign key p) s then
        match p with
        | exp :: iat :: rest =>
            if exp ≤ now then .error .TokenExpired
            else
              match decodePayload rest with
              | none => .error .TokenMalformed
              | some c => .ok ⟨c, iat, exp⟩
        | _ => .error .TokenMalformed
      else .error .TokenSignatureInvalid

theorem splitToken_serializeToken (p s : List Nat) :
    splitToken (serializeToken p s) = some (p, s) := by
  simp only [serializeToken, splitToken]
  rw [if_pos (by rw [List.length_append]; exact Nat.le_add_right _ _)]
  rw [List.take_append_of_le_length (Nat.le_refl _),
    List.drop_append_of_le_length (Nat.le_refl _)]
  simp

theorem decodePayload_round (c : Claims) :
    decodePayload (serializeStr c.sub ++ serializeStr c.username) = some c := by
  have h2 : deserializeStr (serializeStr c.username ++ ([] : List Nat)) =
      some (c.username, []) := deserializeStr_round _ _
  rw [List.append_nil] at h2
  simp [decodePayload, deserializeStr_round, h2]

/-- Round trip: decoding an encoded token before expiry returns the claim set. -/
theorem decode_encode_ok (c : Claims) (now ttl key t : Nat)
    (h : t < now + ttl) :
    decode (encode c now ttl key) t key = .ok ⟨c, now, now + ttl⟩ := by
  simp only [encode, decode, splitToken_serializeToken]
  rw [if_pos ((ctEq_iff _ _).2 rfl)]
  simp only [serializeClaims]
  rw [if_neg (by omega)]
  rw [decodePayload_round]

/-- Round trip: decoding an encoded token at or after expiry is rejected. -/
theorem decode_encode_expired (c : Claims) (now ttl key t : Nat)
    (h : now + ttl ≤ t) :
    decode (encode c now ttl key) t key = .error .TokenExpired := by
  simp only [encode, decode, splitToken_serializeToken]
  rw [if_pos ((ctEq_iff _ _).2 rfl)]
  simp only [serializeClaims]
  rw [if_pos (by omega)]

/-! ## Data model: user store and wire schemas

The user store (`database.py`, not under `src/`) is modelled from the spec as
a simple lookup by unique email/username: a list of records searched in
order, mirroring `db.query(User).filter(...).first()`. -/

/-- A persisted user record (`database.User`). -/
structure User where
  email : String
  username : String
  hashed_password : List Nat
deriving DecidableEq

/-- Registration request body after pydantic validation (`schemas.UserCreate`). -/
structure UserCreate where
  email : String
  username : String
  password : String
deriving DecidableEq

/-- Login request body (`schemas.UserLogin`). -/
structure UserLogin where
  email : String
  password : String
deriving DecidableEq

/-- Login response (`schemas.Token`). -/
structure Token where
  access_token : List Nat
  token_type : String
deriving DecidableEq

/-- Success response of `register` (`schemas.MessageResponse`). -/
structure MessageResponse where
  message : String
  detail : Option String
deriving DecidableEq

/-- An `HTTPException` as raised by the handlers: status code, detail string,
and the optional `WWW-Authenticate` header. -/
structure HTTPErr where
  status : Nat
  detail : String
  wwwAuthenticate : Option String
deriving DecidableEq

/-- First user whose email matches, mirroring
`db.query(User).filter(User.email == e).first()`. -/
def findByEmail (db : List User) (e : String) : Option User :=
  db.find? (fun u => u.email == e)

/-- First user whose username matches. -/
def findByUsername (db : List User) (n : String) : Option User :=
  db.find? (fun u => u.username == n)

/-! ## Schema validation (`src/schemas.py`) -/

/-- The `password_strength` validator of `UserCreate`: at least 8 characters,
at least one digit, at least one letter. -/
def password_strength (v : String) : Except String String :=
  if v.data.length < 8 then
    .error "Password must be at least 8 characters long"
  else if ¬ v.data.any (fun ch => ch.isDigit) then
    .error "Password must contain at least one digit"
  else if ¬ v.data.any (fun ch => ch.isAlpha) then
    .error "Password must contain at least one letter"
  else .ok v

/-- The `username_alphanumeric` validator of `UserCreate`: after removing
underscores and hyphens the remainder is non-empty and alphanumeric
(Python `str.isalnum` is false on the empty string). -/
def username_alphanumeric (v : String) : Except String String :=
  let stripped := v.data.filter (fun ch => ch ≠ '_' ∧ ch ≠ '-')
  if stripped ≠ [] ∧ stripped.all (fun ch => ch.isAlphanum) then .ok v
  else .error "Username must be alphanumeric (underscores and hyphens allowed)"

/-- Pydantic validation of a `UserCreate` body: the `Field` constraints and
the validators, in field-declaration order (email, username, password).
Email format validation is performed inside the pydantic library
(`EmailStr`), outside this repository, and is not modelled. -/
def validateUserCreate (email username password : String) :
    Except String UserCreate :=
  if username.data.length < 3 then .error "username shorter than 3 characters"
  else if 50 < username.data.length then .error "username longer than 50 characters"
  else
    match username_alphanumeric username with
    | .error e => .error e
    | .ok _ =>
        if password.data.length < 8 then
          .error "Password must be at least 8 characters long"
        else
          match password_strength password with
          | .error e => .error e
          | .ok _ => .ok ⟨email, username, password⟩

/-! ## Handlers (`src/main.py`) -/

/-- The error raised by `register` when the email is already registered. -/
def emailTakenErr : HTTPErr := ⟨400, "Email already registered", none⟩

/-- The error raised by `register` when the username is already taken. -/
def usernameTakenErr : HTTPErr := ⟨400, "Username already taken", none⟩

/-- The single error raised by `login` on both failure paths. -/
def invalidCredentialsErr : HTTPErr :=
  ⟨401, "Invalid email or password", some "Bearer"⟩

/-- The error raised by `get_current_user` when the token does not verify. -/
def invalidTokenErr : HTTPErr :=
  ⟨401, "Invalid or expired token", some "Bearer"⟩

/-- The error raised by `get_current_user` when the subject is absent. -/
def userNotFoundErr : HTTPErr := ⟨404, "User not found", none⟩

/-- The `register` handler of `main.py` on a validated body: check email
uniqueness, then username uniqueness, then hash and persist.  Returns the
outcome and the resulting store; the salt drawn by the hasher is passed
explicitly. -/
def register (db : List User) (u : UserCreate) (salt : Nat) :
    Except HTTPErr MessageResponse × List User :=
  match findByEmail db u.email with
  | some _ => (.error emailTakenErr, db)
  | none =>
      match findByUsername db u.username with
      | some _ => (.error usernameTakenErr, db)
      | none =>
          let hashed := get_password_hash u.password salt
          (.ok ⟨"User registered successfully",
                some ("User " ++ u.username ++ " has been created")⟩,
           db ++ [⟨u.email, u.username, hashed⟩])

/-- The `/register` endpoint: pydantic validation of the raw body, then the
`register` handler.  A validation failure is a 422 response produced before
the handler runs. -/
def registerEndpoint (db : List User) (email username password : String)
    (salt : Nat) : Except HTTPErr MessageResponse × List User :=
  match validateUserCreate email username password with
  | .error msg => (.error ⟨422, msg, none⟩, db)
  | .ok u => register db u salt

/-- Modelled from the spec: `auth.ACCESS_TOKEN_EXPIRE_MINUTES` — the token
time-to-live configured at startup (a duration on the order of tens of
minutes). -/
def ACCESS_TOKEN_EXPIRE_MINUTES : Nat := 30

/-- Modelled from the spec: `auth.create_access_token` — encode the claim
data `{"sub": email, "username": username}` with expiry `now + ttl`. -/
def create_access_token (sub username : String) (now ttl key : Nat) :
    List Nat :=
  encode ⟨sub, username⟩ now ttl key

/-- The `login` handler of `main.py`: look up the user by email; if absent or
the password does not verify, raise the one `invalidCredentialsErr`;
otherwise issue a bearer token. -/
def login (db : List User) (cred : UserLogin) (now key : Nat) :
    Except HTTPErr Token :=
  match findByEmail db cred.email with
  | none => .error invalidCredentialsErr
  | some user =>
      if verify_password cred.password user.hashed_password then
        .ok ⟨create_access_token user.email user.username now
               ACCESS_TOKEN_EXPIRE_MINUTES key, "bearer"⟩
      else .error invalidCredentialsErr

/-- Modelled from the spec: `auth.verify_token` — decode the token and return
the subject claim, or nothing on any decode failure. -/
def verify_token (token : List Nat) (now key : Nat) : Option String :=
  match decode token now key with
  | .ok cs => some cs.claims.sub
  | .error _ => none

/-- The `get_current_user` handler of `main.py`: verify the token (a falsy
result — `None` or the empty string — yields 401), then re-resolve the
subject in the store (absence yields 404). -/
def get_current_user (db : List User) (token : List Nat) (now key : Nat) :
    Except HTTPErr User :=
  match verify_token token now key with
  | none => .error invalidTokenErr
  | some email =>
      if email = "" then .error invalidTokenErr
      else
        match findByEmail db email with
        | none => .error userNotFoundErr
        | some user => .ok user

/-! ## Helper lemmas -/

theorem set_ne_of_getD (l : List Nat) (j b : Nat) (h : j < l.length)
    (hb : b ≠ l.getD j 0) : l.set j b ≠ l := by
  intro heq
  apply hb
  have h2 : (l.set j b).getD j 0 = b := by
    rw [List.getD_eq_getElem _ 0 (by simpa using h)]
    exact List.getElem_set_self _
  rw [heq] at h2
  exact h2.symm

theorem ctEq_false_of_ne {a b : List Nat} (h : a ≠ b) : ctEq a b = false := by
  cases hc : ctEq a b
  · rfl
  · exact absurd ((ctEq_iff a b).1 hc) h

/-- Mutating byte `j` of the concatenated payload-and-signature region of a
well-signed token makes the signature check fail. -/
theorem decode_set_region (p : List Nat) (key t j b : Nat)
    (hj : j < (p ++ sign key p).length)
    (hb : b ≠ (p ++ sign key p).getD j 0) :
    decode ((serializeToken p (sign key p)).set (j + 1) b) t key =
      .error .TokenSignatureInvalid := by
  have hset : (serializeToken p (sign key p)).set (j + 1) b =
      p.length :: (p ++ sign key p).set j b := rfl
  rw [hset]
  rw [List.length_append] at hj
  by_cases hcase : j < p.length
  · -- the mutated byte lies in the payload
    rw [List.set_append_left j b hcase]
    have htake1 : (p.set j b ++ sign key p).take p.length = p.set j b := by
      rw [← List.length_set p j b, List.take_left]
    have htake2 : (p.set j b ++ sign key p).drop p.length = sign key p := by
      rw [← List.length_set p j b, List.drop_left]
    have hne : p.set j b ≠ p :=
      set_ne_of_getD p j b hcase (by rwa [List.getD_append _ _ _ _ hcase] at hb)
    have hct : ctEq (sign key (p.set j b)) (sign key p) = false :=
      ctEq_false_of_ne (by simpa [sign] using hne)
    simp only [decode, splitToken]
    rw [if_pos (by simp [List.length_append])]
    rw [htake1, htake2]
    dsimp only
    rw [hct]
    rfl
  · -- the mutated byte lies in the signature
    have hge : p.length ≤ j := Nat.le_of_not_lt hcase
    rw [List.set_append_right j b hge]
    have htake1 : (p ++ (sign key p).set (j - p.length) b).take p.length = p :=
      List.take_left _ _
    have htake2 : (p ++ (sign key p).set (j - p.length) b).drop p.length =
        (sign key p).set (j - p.length) b :=
      List.drop_left _ _
    have hjlt : j - p.length < (sign key p).length := by omega
    have hne : (sign key p).set (j - p.length) b ≠ sign key p := by
      apply set_ne_of_getD _ _ _ hjlt
      rwa [List.getD_append_right _ _ _ _ hge] at hb
    have hct : ctEq (sign key p) ((sign key p).set (j - p.length) b) = false :=
      ctEq_false_of_ne (Ne.symm hne)
    simp only [decode, splitToken]
    rw [if_pos (by simp [List.length_append])]
    rw [htake1, htake2]
    dsimp only
    rw [hct]
    rfl

theorem password_strength_ok {p : String} {v : String}
    (h : password_strength p = .ok v) :
    8 ≤ p.data.length ∧ p.data.any (fun ch => ch.isDigit) = true ∧
      p.data.any (fun ch => ch.isAlpha) = true := by
  unfold password_strength at h
  split_ifs at h with h1 h2 h3
  exact ⟨by omega, h2, h3⟩

theorem find?_append_none {l1 l2 : List User} {p : User → Bool}
    (h : l1.find? p = none) : (l1 ++ l2).find? p = l2.find? p := by
  simp [List.find?_append, h]

/-! ## Claim theorems -/

/-- C3: for every claim set `c` and every `ttl > 0`, decoding
`encode c now ttl key` at a time `t` strictly before `now + ttl` returns the
claim set with claims exactly `c` (issued-at `now`, expiry `now + ttl`), and
decoding it at any `t` at or after `now + ttl` yields `TokenExpired`. -/
theorem C3_encode_decode_roundtrip (c : Claims) (now ttl key t : Nat)
    (_httl : 0 < ttl) :
    (t < now + ttl →
      decode (encode c now ttl key) t key = .ok ⟨c, now, now + ttl⟩) ∧
    (now + ttl ≤ t →
      decode (encode c now ttl key) t key = .error .TokenExpired) :=
  ⟨decode_encode_ok c now ttl key t, decode_encode_expired c now ttl key t⟩

/-- Witness for C3 at a concrete claim set, before and after expiry. -/
theorem C3_encode_decode_roundtrip_witness :
    decode (encode ⟨"a@x.com", "alice"⟩ 0 10 7) 3 7 =
      .ok ⟨⟨"a@x.com", "alice"⟩, 0, 10⟩ ∧
    decode (encode ⟨"a@x.com", "alice"⟩ 0 10 7) 10 7 =
      .error .TokenExpired :=
  ⟨(C3_encode_decode_roundtrip ⟨"a@x.com", "alice"⟩ 0 10 7 3 (by decide)).1
      (by decide),
   (C3_encode_decode_roundtrip ⟨"a@x.com", "alice"⟩ 0 10 7 10 (by decide)).2
      (by decide)⟩

/-- C4: mutating any single byte of the payload or signature region of an
issued token (index `i ≥ 1` skips the structural length prefix) to a
different value makes `decode` return `TokenSignatureInvalid`, never a
successful decode. -/
theorem C4_mutation_invalidates_signature (c : Claims)
    (now ttl key t i b : Nat) (h1 : 1 ≤ i)
    (h2 : i < (encode c now ttl key).length)
    (h3 : b ≠ (encode c now ttl key).getD i 0) :
    decode ((encode c now ttl key).set i b) t key =
      .error .TokenSignatureInvalid := by
  cases i with
  | zero => omega
  | succ j =>
      have hj : j < (serializeClaims ⟨c, now, now + ttl⟩ ++
          sign key (serializeClaims ⟨c, now, now + ttl⟩)).length := by
        have : (encode c now ttl key).length =
            (serializeClaims ⟨c, now, now + ttl⟩ ++
              sign key (serializeClaims ⟨c, now, now + ttl⟩)).length + 1 := by
          simp [encode, serializeToken]
        omega
      exact decode_set_region (serializeClaims ⟨c, now, now + ttl⟩)
        key t j b hj h3

/-- Witness for C4: a concrete mutated byte in the payload. -/
theorem C4_mutation_invalidates_signature_witness :
    decode ((encode ⟨"a@x.com", "alice"⟩ 0 10 7).set 1 11) 0 7 =
      .error .TokenSignatureInvalid :=
  C4_mutation_invalidates_signature ⟨"a@x.com", "alice"⟩ 0 10 7 0 1 11
    (by decide) (by decide) (by decide)

/-- C5: `decode` reports the three failure modes `TokenMalformed` (wrong
structure), `TokenSignatureInvalid` (wrong key or tampered payload) and
`TokenExpired` (valid signature past expiry) as pairwise distinct outcomes,
distinguishable from each other and from a successful decode. -/
theorem C5_decode_three_failure_modes :
    decode [5] 0 7 = .error .TokenMalformed ∧
    decode (encode ⟨"a@x.com", "alice"⟩ 0 10 7) 0 8 =
      .error .TokenSignatureInvalid ∧
    decode (encode ⟨"a@x.com", "alice"⟩ 0 10 7) 10 7 =
      .error .TokenExpired ∧
    decode (encode ⟨"a@x.com", "alice"⟩ 0 10 7) 0 7 =
      .ok ⟨⟨"a@x.com", "alice"⟩, 0, 10⟩ ∧
    TokenError.TokenMalformed ≠ TokenError.TokenSignatureInvalid ∧
    TokenError.TokenMalformed ≠ TokenError.TokenExpired ∧
    TokenError.TokenSignatureInvalid ≠ TokenError.TokenExpired :=
  ⟨rfl, rfl, rfl, rfl, by decide, by decide, by decide⟩

/-- C8: `verify_password` is a total boolean function with no error outcome:
it returns `false` on an empty secret, on a malformed stored hash, and on a
mismatched secret. -/
theorem C8_verify_total_returns_false (s s2 : String) (h : List Nat)
    (salt : Nat) :
    verify_password "" h = false ∧
    (parseStoredHash h = none → verify_password s h = false) ∧
    (s ≠ s2 → verify_password s (get_password_hash s2 salt) = false) := by
  refine ⟨rfl, ?_, ?_⟩
  · intro hp
    by_cases hs : s = ""
    · simp [verify_password, hs]
    · simp [verify_password, hs, hp]
  · intro hne
    by_cases hs : s = ""
    · simp [verify_password, hs]
    · simp only [verify_password, hs, if_false, get_password_hash,
        parseStoredHash]
      cases hc : ctEq (hashDigest s salt) (hashDigest s2 salt)
      · rfl
      · have heq := (ctEq_iff _ _).1 hc
        simp only [hashDigest, List.cons.injEq, true_and] at heq
        exact absurd (strBytes_inj heq) hne

/-- Witness for C8 at concrete secrets and hashes. -/
theorem C8_verify_total_returns_false_witness :
    verify_password "" [] = false ∧
    verify_password "Passw0rd" [] = false ∧
    verify_password "Passw0rd" (get_password_hash "0therPw1" 3) = false :=
  ⟨(C8_verify_total_returns_false "Passw0rd" "0therPw1" [] 3).1,
   (C8_verify_total_returns_false "Passw0rd" "0therPw1" [] 3).2.1 rfl,
   (C8_verify_total_returns_false "Passw0rd" "0therPw1" [] 3).2.2 (by decide)⟩

/-- C1: both login failure paths — email not registered, and email registered
but password not verifying — return the identical external error value
`invalidCredentialsErr` (401, "Invalid email or password"), so the two
failure runs are indistinguishable to the caller. -/
theorem C1_login_failures_indistinguishable (db : List User)
    (cred : UserLogin) (now key : Nat) :
    (findByEmail db cred.email = none →
      login db cred now key = .error invalidCredentialsErr) ∧
    (∀ u, findByEmail db cred.email = some u →
      verify_password cred.password u.hashed_password = false →
      login db cred now key = .error invalidCredentialsErr) := by
  constructor
  · intro h
    simp [login, h]
  · intro u hu hv
    simp [login, hu, hv]

/-- Witness for C1: a registered email with a wrong password and an unknown
email produce the same error value. -/
theorem C1_login_failures_indistinguishable_witness :
    login [⟨"a@x.com", "alice", get_password_hash "Passw0rd" 3⟩]
        ⟨"a@x.com", "wrongpw1"⟩ 0 7 = .error invalidCredentialsErr ∧
    login [⟨"a@x.com", "alice", get_password_hash "Passw0rd" 3⟩]
        ⟨"b@x.com", "Passw0rd"⟩ 0 7 = .error invalidCredentialsErr :=
  ⟨(C1_login_failures_indistinguishable
      [⟨"a@x.com", "alice", get_password_hash "Passw0rd" 3⟩]
      ⟨"a@x.com", "wrongpw1"⟩ 0 7).2
      ⟨"a@x.com", "alice", get_password_hash "Passw0rd" 3⟩ rfl rfl,
   (C1_login_failures_indistinguishable
      [⟨"a@x.com", "alice", get_password_hash "Passw0rd" 3⟩]
      ⟨"b@x.com", "Passw0rd"⟩ 0 7).1 rfl⟩

/-- C2 (counterexample): a token that decodes successfully but whose subject
is absent from the store yields the 404 user-not-found error, while a decode
failure yields the 401 invalid-token error — two distinct outcomes, refuting
the claim that both cases return the same Unauthenticated outcome. -/
theorem C2_counterexample_distinct_outcomes :
    get_current_user [] (encode ⟨"ghost@x.com", "g"⟩ 0 10 7) 1 7 =
      .error userNotFoundErr ∧
    get_current_user [] [99] 1 7 = .error invalidTokenErr ∧
    userNotFoundErr ≠ invalidTokenErr :=
  ⟨rfl, rfl, by decide⟩

/-- C2 (amended): every decode failure yields the 401 invalid-token error,
but a successfully decoded token whose non-empty subject no longer exists in
the store yields the distinct 404 user-not-found error, not the same
outcome. -/
theorem C2_deleted_subject_gets_distinct_404 (db : List User)
    (token : List Nat) (t key : Nat) (cs : ClaimSet) :
    (∀ e, decode token t key = .error e →
      get_current_user db token t key = .error invalidTokenErr) ∧
    (decode token t key = .ok cs → cs.claims.sub ≠ "" →
      findByEmail db cs.claims.sub = none →
      get_current_user db token t key = .error userNotFoundErr) ∧
    userNotFoundErr ≠ invalidTokenErr := by
  refine ⟨?_, ?_, by decide⟩
  · intro e he
    simp [get_current_user, verify_token, he]
  · intro hok hs hf
    simp [get_current_user, verify_token, hok, hs, hf]

/-- Witness for C2 (amended) at a concrete deleted subject and a concrete
malformed token. -/
theorem C2_deleted_subject_gets_distinct_404_witness :
    get_current_user [] [99] 1 7 = .error invalidTokenErr ∧
    get_current_user [] (encode ⟨"ghost@x.com", "g"⟩ 0 10 7) 1 7 =
      .error userNotFoundErr :=
  ⟨(C2_deleted_subject_gets_distinct_404 [] [99] 1 7
      ⟨⟨"ghost@x.com", "g"⟩, 0, 10⟩).1 .TokenMalformed rfl,
   (C2_deleted_subject_gets_distinct_404 [] (encode ⟨"ghost@x.com", "g"⟩ 0 10 7)
      1 7 ⟨⟨"ghost@x.com", "g"⟩, 0, 10⟩).2.1 rfl (by decide) rfl⟩

/-- C6: the email uniqueness check runs before the username check; the first
failing check halts registration with the error naming that field, and
registering the same email twice yields success then the email-duplicate
error. -/
theorem C6_register_email_check_first (db : List User) (u u2 : UserCreate)
    (salt salt2 : Nat) :
    ((∃ w, findByEmail db u.email = some w) →
      register db u salt = (.error emailTakenErr, db)) ∧
    (findByEmail db u.email = none →
      (∃ w, findByUsername db u.username = some w) →
      register db u salt = (.error usernameTakenErr, db)) ∧
    (findByEmail db u.email = none → findByUsername db u.username = none →
      u2.email = u.email →
      (register db u salt).1 = .ok ⟨"User registered successfully",
        some ("User " ++ u.username ++ " has been created")⟩ ∧
      (register (register db u salt).2 u2 salt2).1 = .error emailTakenErr) := by
  refine ⟨?_, ?_, ?_⟩
  · rintro ⟨w, hw⟩
    simp [register, hw]
  · rintro he ⟨w, hw⟩
    simp [register, he, hw]
  · intro he hu hemail
    have hreg : register db u salt =
        (.ok ⟨"User registered successfully",
          some ("User " ++ u.username ++ " has been created")⟩,
         db ++ [⟨u.email, u.username, get_password_hash u.password salt⟩]) := by
      simp [register, he, hu]
    refine ⟨by rw [hreg], ?_⟩
    rw [hreg]
    have hfind : findByEmail
        (db ++ [⟨u.email, u.username, get_password_hash u.password salt⟩])
        u2.email = some ⟨u.email, u.username, get_password_hash u.password salt⟩ := by
      rw [hemail]
      unfold findByEmail at he ⊢
      rw [find?_append_none he]
      simp [List.find?]
    simp [register, hfind]

/-- Witness for C6: registering the same email twice on an empty store. -/
theorem C6_register_email_check_first_witness :
    (register [] ⟨"a@x.com", "alice", "Passw0rd"⟩ 0).1 =
      .ok ⟨"User registered successfully",
        some ("User " ++ "alice" ++ " has been created")⟩ ∧
    (register (register [] ⟨"a@x.com", "alice", "Passw0rd"⟩ 0).2
      ⟨"a@x.com", "bob42", "Passw0rd"⟩ 1).1 = .error emailTakenErr :=
  (C6_register_email_check_first [] ⟨"a@x.com", "alice", "Passw0rd"⟩
    ⟨"a@x.com", "bob42", "Passw0rd"⟩ 0 1).2.2 rfl rfl rfl

/-- C7: a registration that fails with a duplicate error leaves the user
store unchanged, and a record is appended exactly on the success path. -/
theorem C7_register_store_unchanged_on_failure (db : List User)
    (u : UserCreate) (salt : Nat) :
    (∀ e, (register db u salt).1 = .error e → (register db u salt).2 = db) ∧
    (∀ m, (register db u salt).1 = .ok m → (register db u salt).2 =
      db ++ [⟨u.email, u.username, get_password_hash u.password salt⟩]) := by
  unfold register
  cases h1 : findByEmail db u.email with
  | some w => simp
  | none =>
      cases h2 : findByUsername db u.username with
      | some w => simp
      | none => simp

/-- Witness for C7: a duplicate-email failure leaves the store unchanged and
a success appends the record. -/
theorem C7_register_store_unchanged_on_failure_witness :
    (register [⟨"a@x.com", "alice", get_password_hash "Passw0rd" 3⟩]
      ⟨"a@x.com", "bob42", "Passw0rd"⟩ 0).2 =
      [⟨"a@x.com", "alice", get_password_hash "Passw0rd" 3⟩] ∧
    (register [] ⟨"a@x.com", "alice", "Passw0rd"⟩ 3).2 =
      [] ++ [⟨"a@x.com", "alice", get_password_hash "Passw0rd" 3⟩] :=
  ⟨(C7_register_store_unchanged_on_failure
      [⟨"a@x.com", "alice", get_password_hash "Passw0rd" 3⟩]
      ⟨"a@x.com", "bob42", "Passw0rd"⟩ 0).1 emailTakenErr rfl,
   (C7_register_store_unchanged_on_failure [] ⟨"a@x.com", "alice", "Passw0rd"⟩
      3).2 ⟨"User registered successfully",
        some ("User " ++ "alice" ++ " has been created")⟩ rfl⟩

/-- C9: the registration endpoint rejects, during body validation and before
any hashing or store access (the store is returned unchanged and the handler
never runs), every password shorter than 8 characters, without a digit, or
without a letter; conversely a body that passes validation has a password
satisfying all three conditions. -/
theorem C9_password_policy_enforced_before_handler (db : List User)
    (e u p : String) (salt : Nat) :
    ((p.data.length < 8 ∨ p.data.any (fun ch => ch.isDigit) = false ∨
        p.data.any (fun ch => ch.isAlpha) = false) →
      ∃ msg, registerEndpoint db e u p salt = (.error ⟨422, msg, none⟩, db)) ∧
    (∀ uc, validateUserCreate e u p = .ok uc →
      8 ≤ p.data.length ∧ p.data.any (fun ch => ch.isDigit) = true ∧
        p.data.any (fun ch => ch.isAlpha) = true) := by
  constructor
  · intro hbad
    unfold registerEndpoint validateUserCreate
    by_cases hu1 : u.data.length < 3
    · rw [if_pos hu1]
      exact ⟨_, rfl⟩
    · rw [if_neg hu1]
      by_cases hu2 : 50 < u.data.length
      · rw [if_pos hu2]
        exact ⟨_, rfl⟩
      · rw [if_neg hu2]
        cases husr : username_alphanumeric u with
        | error msg => exact ⟨msg, rfl⟩
        | ok w =>
            dsimp only
            by_cases hp1 : p.data.length < 8
            · rw [if_pos hp1]
              exact ⟨_, rfl⟩
            · rw [if_neg hp1]
              cases hps : password_strength p with
              | error msg => exact ⟨msg, rfl⟩
              | ok v =>
                  exfalso
                  have hgood := password_strength_ok hps
                  rcases hbad with hb | hb | hb
                  · omega
                  · rw [hgood.2.1] at hb
                    simp at hb
                  · rw [hgood.2.2] at hb
                    simp at hb
  · intro uc hok
    unfold validateUserCreate at hok
    by_cases hu1 : u.data.length < 3
    · rw [if_pos hu1] at hok
      simp at hok
    · rw [if_neg hu1] at hok
      by_cases hu2 : 50 < u.data.length
      · rw [if_pos hu2] at hok
        simp at hok
      · rw [if_neg hu2] at hok
        cases husr : username_alphanumeric u with
        | error msg =>
            rw [husr] at hok
            simp at hok
        | ok w =>
            rw [husr] at hok
            dsimp only at hok
            by_cases hp1 : p.data.length < 8
            · rw [if_pos hp1] at hok
              simp at hok
            · rw [if_neg hp1] at hok
              cases hps : password_strength p with
              | error msg =>
                  rw [hps] at hok
                  simp at hok
              | ok v => exact password_strength_ok hps

/-- Witness for C9: a password with no digit is rejected with the store
unchanged, and a valid body implies the three password conditions. -/
theorem C9_password_policy_enforced_before_handler_witness :
    (∃ msg, registerEndpoint [] "a@x.com" "alice" "NoDigitsHere" 0 =
      (.error ⟨422, msg, none⟩, [])) ∧
    (8 ≤ "Passw0rd".data.length ∧
      "Passw0rd".data.any (fun ch => ch.isDigit) = true ∧
      "Passw0rd".data.any (fun ch => ch.isAlpha) = true) :=
  ⟨(C9_password_policy_enforced_before_handler [] "a@x.com" "alice"
      "NoDigitsHere" 0).1 (by decide),
   (C9_password_policy_enforced_before_handler [] "a@x.com" "alice"
      "Passw0rd" 0).2 ⟨"a@x.com", "alice", "Passw0rd"⟩ rfl⟩

/-- C10: every successful login carries `token_type = "bearer"`, and the
issued token decodes to a claim set whose subject is the authenticated
user's email and whose username claim is that user's stored username. -/
theorem C10_login_bearer_and_claims (db : List User) (cred : UserLogin)
    (now key : Nat) (tok : Token)
    (h : login db cred now key = .ok tok) :
    tok.token_type = "bearer" ∧
    ∃ u, findByEmail db cred.email = some u ∧
      decode tok.access_token now key =
        .ok ⟨⟨u.email, u.username⟩, now, now + ACCESS_TOKEN_EXPIRE_MINUTES⟩ := by
  unfold login at h
  cases hf : findByEmail db cred.email with
  | none => rw [hf] at h; cases h
  | some u =>
      rw [hf] at h
      dsimp only at h
      by_cases hv : verify_password cred.password u.hashed_password = true
      · rw [if_pos hv] at h
        injection h with h2
        subst h2
        refine ⟨rfl, u, rfl, ?_⟩
        exact decode_encode_ok ⟨u.email, u.username⟩ now
          ACCESS_TOKEN_EXPIRE_MINUTES key now
          (Nat.lt_add_of_pos_right (by decide))
      · rw [if_neg hv] at h
        cases h

/-- Witness for C10 at a concrete store and a correct login. -/
theorem C10_login_bearer_and_claims_witness :
    (Token.mk (create_access_token "a@x.com" "alice" 0
        ACCESS_TOKEN_EXPIRE_MINUTES 7) "bearer").token_type = "bearer" ∧
    ∃ u, findByEmail [⟨"a@x.com", "alice", get_password_hash "Passw0rd" 3⟩]
        "a@x.com" = some u ∧
      decode (Token.mk (create_access_token "a@x.com" "alice" 0
          ACCESS_TOKEN_EXPIRE_MINUTES 7) "bearer").access_token 0 7 =
        .ok ⟨⟨u.email, u.username⟩, 0, 0 + ACCESS_TOKEN_EXPIRE_MINUTES⟩ :=
  C10_login_bearer_and_claims
    [⟨"a@x.com", "alice", get_password_hash "Passw0rd" 3⟩]
    ⟨"a@x.com", "Passw0rd"⟩ 0 7
    ⟨create_access_token "a@x.com" "alice" 0 ACCESS_TOKEN_EXPIRE_MINUTES 7,
      "bearer"⟩ rfl

end AuthSpec
